import Mathlib

/-!
Verification of the SSM host-resolution and SSH command-assembly logic.

The Python sources (`src/malathair/ssm/ssm.py`, the current module, and
`temp.py`, the legacy copy) are shallowly embedded here.  Strings are
modelled as `List Char`; the platform name-resolution facility
(`socket.getaddrinfo` / `socket.gethostbyname`) is modelled as an oracle
`dns : Str → Bool` (`true` means the lookup succeeds, `false` means it
raises `socket.gaierror`); `ipaddress.IPv4Network` is modelled down to the
distinction between `AddressValueError` (caught by `build_domain`) and the
other exceptions (`NetmaskValueError`, the strict host-bits `ValueError`)
that `build_domain` does not catch.  Each resolver function additionally
returns the ordered list of names it handed to the resolution facility, so
that "no lookup is performed" claims are expressible.
-/

namespace SSM

abbrev Str := List Char

/-- Python exceptions that can escape `build_domain`:
`parseError` stands for `ipaddress.NetmaskValueError` or the strict-mode
`ValueError` raised by `IPv4Network` (neither is caught by the source's
`except ipaddress.AddressValueError`); `unreachable h` is the
`Exception(f'Host "{host}" is unreachable')` raised by the legacy copy. -/
inductive PyExc where
  | parseError
  | unreachable (host : Str)
deriving DecidableEq

/-- A Python call result: a returned value or an escaping exception. -/
inductive PyResult (α : Type) where
  | val (a : α)
  | exc (e : PyExc)
deriving DecidableEq

/-- Python `s.split(sep)` for a one-character separator: always returns at
least one (possibly empty) piece. -/
def splitOnChar (sep : Char) : Str → List Str
  | [] => [[]]
  | c :: rest =>
    let r := splitOnChar sep rest
    if c = sep then [] :: r
    else
      match r with
      | [] => [[c]]
      | p :: ps => (c :: p) :: ps

def isAsciiDigit (c : Char) : Bool := 48 ≤ c.toNat && c.toNat ≤ 57

/-- Value of an all-ASCII-digit string (Python `int(s, 10)`). -/
def digitsToNat (s : Str) : Nat := s.foldl (fun a c => a * 10 + (c.toNat - 48)) 0

/-- CPython `ipaddress._parse_octet`: nonempty, ASCII digits only, at most
3 characters, no leading zeros, value at most 255. -/
def parseOctet (s : Str) : Option Nat :=
  if s.isEmpty then none
  else if !s.all isAsciiDigit then none
  else if 3 < s.length then none
  else if s != ['0'] && s.headD '0' == '0' then none
  else
    let n := digitsToNat s
    if 255 < n then none else some n

def parseOctets : List Str → Option (List Nat)
  | [] => some []
  | o :: os =>
    match parseOctet o, parseOctets os with
    | some n, some ns => some (n :: ns)
    | _, _ => none

/-- CPython `IPv4Address._ip_int_from_string`: exactly 4 valid octets. -/
def parseIPv4Addr (s : Str) : Option Nat :=
  match parseOctets (splitOnChar '.' s) with
  | some [a, b, c, d] => some (((a * 256 + b) * 256 + c) * 256 + d)
  | _ => none

/-- `_ALL_ONES ^ (_ALL_ONES >> p)`: packed form of a `/p` netmask. -/
def maskInt (p : Nat) : Nat := (2 ^ 32 - 1) ^^^ ((2 ^ 32 - 1) >>> p)

/-- CPython `_prefix_from_ip_int`: an integer is a valid netmask iff it is
`maskInt p` for some `p ≤ 32`; returns that `p`. -/
def netmaskPrefixOfInt (n : Nat) : Option Nat :=
  (List.range 33).find? (fun p => n == maskInt p)

/-- CPython `_prefix_from_prefix_string`: all-ASCII-digit string whose value
is at most the maximal prefix length 32. -/
def prefixLenFromString (s : Str) : Option Nat :=
  if !s.isEmpty && s.all isAsciiDigit then
    let p := digitsToNat s
    if p ≤ 32 then some p else none
  else none

/-- CPython `_prefix_from_ip_string`: dotted-quad netmask or hostmask. -/
def prefixLenFromIpString (s : Str) : Option Nat :=
  match parseIPv4Addr s with
  | none => none
  | some n =>
    match netmaskPrefixOfInt n with
    | some p => some p
    | none => netmaskPrefixOfInt (n ^^^ (2 ^ 32 - 1))

/-- CPython `IPv4Network._make_netmask` on a string argument; `none` means
`NetmaskValueError`. -/
def netmaskFromString (s : Str) : Option Nat :=
  match prefixLenFromString s with
  | some p => some p
  | none => prefixLenFromIpString s

/-- Outcome of `ipaddress.IPv4Network(s)` (strict mode, the default):
`ok` = parses; `addrErr` = raises `AddressValueError`; `otherErr` = raises
`NetmaskValueError` or the strict host-bits `ValueError`. -/
inductive IPParse where
  | ok
  | addrErr
  | otherErr
deriving DecidableEq

def parseIPv4Network (s : Str) : IPParse :=
  match splitOnChar '/' s with
  | [addr] =>
    match parseIPv4Addr addr with
    | none => IPParse.addrErr
    | some packed =>
      if packed &&& maskInt 32 = packed then IPParse.ok else IPParse.otherErr
  | [addr, mask] =>
    match parseIPv4Addr addr with
    | none => IPParse.addrErr
    | some packed =>
      match netmaskFromString mask with
      | none => IPParse.otherErr
      | some p => if packed &&& maskInt p = packed then IPParse.ok else IPParse.otherErr
  | _ => IPParse.addrErr

/-- Index of the first `'@'`, if any (Python `str.find` returns the FIRST
occurrence, or `-1`). -/
def firstAtIndex : Str → Option Nat
  | [] => none
  | c :: rest => if c = '@' then some 0 else (firstAtIndex rest).map (fun i => i + 1)

/-- `host_arg[host_arg.find("@") + 1 :]` — everything after the first `'@'`,
or the whole string when there is none. -/
def hostOf (s : Str) : Str :=
  match firstAtIndex s with
  | some i => s.drop (i + 1)
  | none => s

/-- The `for domain in config.domains` loop shared by both resolver copies:
first component is the value `return`ed by the loop (if any), second the
list of names handed to the resolution facility, in order. -/
def searchDomains (host_arg host : Str) (dns : Str → Bool) : List Str → Option Str × List Str
  | [] => (none, [])
  | d :: rest =>
    let cand := host ++ '.' :: d
    if dns cand then (some (host_arg ++ '.' :: d), [cand])
    else
      let r := searchDomains host_arg host dns rest
      (r.1, cand :: r.2)

/-- `build_domain` from `src/malathair/ssm/ssm.py` (the current copy):
returns `val (some target)` on success, `val none` when every probe fails
(Python `return None`), `exc` when an uncaught exception escapes.  The
second component is the ordered trace of resolution-facility calls. -/
def build_domain (host_arg : Str) (domains : List Str) (dns : Str → Bool) :
    PyResult (Option Str) × List Str :=
  let host := hostOf host_arg
  match parseIPv4Network host with
  | IPParse.ok => (PyResult.val (some host_arg), [])
  | IPParse.otherErr => (PyResult.exc PyExc.parseError, [])
  | IPParse.addrErr =>
    if '.' ∈ host then
      if dns host then (PyResult.val (some host_arg), [host])
      else
        let r := searchDomains host_arg host dns domains
        (PyResult.val r.1, host :: r.2)
    else
      let r := searchDomains host_arg host dns domains
      (PyResult.val r.1, r.2)

/-- `build_domain` from `temp.py` (the legacy copy): identical probe
sequence, but exhaustion raises `Exception(f'Host "{host}" is unreachable')`
instead of returning `None`. -/
def build_domain_legacy (host_arg : Str) (domains : List Str) (dns : Str → Bool) :
    PyResult Str × List Str :=
  let host := hostOf host_arg
  match parseIPv4Network host with
  | IPParse.ok => (PyResult.val host_arg, [])
  | IPParse.otherErr => (PyResult.exc PyExc.parseError, [])
  | IPParse.addrErr =>
    if '.' ∈ host then
      if dns host then (PyResult.val host_arg, [host])
      else
        let r := searchDomains host_arg host dns domains
        match r.1 with
        | some t => (PyResult.val t, host :: r.2)
        | none => (PyResult.exc (PyExc.unreachable host), host :: r.2)
    else
      let r := searchDomains host_arg host dns domains
      match r.1 with
      | some t => (PyResult.val t, r.2)
      | none => (PyResult.exc (PyExc.unreachable host), r.2)

/-- The parsed CLI options consumed by `ssh` and `main` (`argparse`
attributes).  `command` / `jumphost` are `None` or a string in Python;
`v` counts `-v` occurrences (`None` is modelled as `0`, matching Python
truthiness of both). -/
structure Options where
  command : Option Str
  dev : Bool
  jump : Bool
  jumphost : Option Str
  nopubkey : Bool
  port : Str
  tunnel : Bool
  v : Nat
deriving DecidableEq

/-- The configuration object (`Config`) fields read by the core. -/
structure Config where
  ssh_port : Str
  jump_host : Str
  domains : List Str
  tunnel_port : Str
  sshpass : Bool
deriving DecidableEq

/-- Python truthiness of a `str | None` value: `None` and `""` are falsy. -/
def truthy : Option Str → Bool
  | none => false
  | some s => !s.isEmpty

def sshTok : Str := ("ssh").data
def pTok : Str := ("-p").data
def oTok : Str := ("-o").data
def strictTok : Str := ("StrictHostKeyChecking=no").data
def pubkeyTok : Str := ("PubkeyAuthentication=no").data
def jTok : Str := ("-J").data
def dTok : Str := ("-D").data
def sshpassTok : Str := ("sshpass").data
def eTok : Str := ("-e").data

/-- `"-" + "v" * multiplier` with `multiplier = args.v if args.v < 4 else 3`. -/
def verbosityTok (v : Nat) : Str := '-' :: List.replicate (if v < 4 then v else 3) 'v'

/-- Verbosity tokens appended when `args.v` is truthy. -/
def verbosityPart (opts : Options) : List Str :=
  if opts.v ≠ 0 then [verbosityTok opts.v] else []

/-- Tokens appended by the deprecated `-o (--nopubkey)` flag. -/
def nopubkeyPart (opts : Options) : List Str :=
  if opts.nopubkey then [oTok, pubkeyTok] else []

/-- The `openssh_command` list as it stands right before the
jump-host/sshpass section of `ssh`:
`["ssh", "-p", port] (+ verbosity) + ["-o", "StrictHostKeyChecking=no"]
(+ ["-o", "PubkeyAuthentication=no"])`. -/
def baseCmd (opts : Options) : List Str :=
  [sshTok, pTok, opts.port] ++ verbosityPart opts ++ [oTok, strictTok] ++ nopubkeyPart opts

/-- Tokens appended by `if args.tunnel and not args.command`. -/
def tunnelPart (opts : Options) (cfg : Config) : List Str :=
  if opts.tunnel && !truthy opts.command then [dTok, cfg.tunnel_port] else []

/-- Tokens appended by `if args.command` (truthiness: an empty command
string is treated as absent). -/
def commandPart (opts : Options) : List Str :=
  match opts.command with
  | some c => if c.isEmpty then [] else [c]
  | none => []

/-- The suffix `ssh` appends after the jump-host/sshpass section:
optional `-D <tunnel_port>`, the target, optional remote command. -/
def tailCmd (opts : Options) (cfg : Config) (domain : Str) (cmd : List Str) : List Str :=
  cmd ++ tunnelPart opts cfg ++ [domain] ++ commandPart opts

/-- `args.jumphost if args.jumphost else config.jump_host`. -/
def jumphostName (opts : Options) (cfg : Config) : Str :=
  match opts.jumphost with
  | some s => if s.isEmpty then cfg.jump_host else s
  | none => cfg.jump_host

/-- `get_jumphost`: resolves the jump host through `build_domain`;
`val none` models the `print`-and-`return None` failure path (including the
falsy-result guard `if domain:`). -/
def get_jumphost (opts : Options) (cfg : Config) (dns : Str → Bool) :
    PyResult (Option Str) :=
  match (build_domain (jumphostName opts cfg) cfg.domains dns).1 with
  | PyResult.exc e => PyResult.exc e
  | PyResult.val (some d) => if d.isEmpty then PyResult.val none else PyResult.val (some d)
  | PyResult.val none => PyResult.val none

/-- The command vector assembled by `ssh` for a resolved target `domain`:
`val (some vec)` = the vector handed to `subprocess.run` (or printed in dev
mode); `val none` = the early `return` after a jump-host resolution
failure; `exc` = an exception escaping from `get_jumphost`.
`alt_user` is `domain.find("@") != -1`, i.e. `'@' ∈ domain`. -/
def ssh_command (opts : Options) (cfg : Config) (domain : Str) (dns : Str → Bool) :
    PyResult (Option (List Str)) :=
  if opts.jump || truthy opts.jumphost then
    match get_jumphost opts cfg dns with
    | PyResult.exc e => PyResult.exc e
    | PyResult.val none => PyResult.val none
    | PyResult.val (some jh) =>
        PyResult.val (some (tailCmd opts cfg domain (baseCmd opts ++ [jTok, jh])))
  else if cfg.sshpass ∧ '@' ∉ domain then
    PyResult.val (some (tailCmd opts cfg domain (sshpassTok :: eTok :: baseCmd opts)))
  else
    PyResult.val (some (tailCmd opts cfg domain (baseCmd opts)))

/-- Messages printed by `main`/`ssh` (the `args.dev`-gated debug prints of
`build_domain` and the dev-only return-code print are not modelled; every
branch below that emits them has `dev` handled explicitly). -/
inductive Msg where
  | text (s : Str)
  | pyExc (e : PyExc)
  | vecPrint (v : List Str)
  | deprecatedFlagWarning
deriving DecidableEq

/-- `f'Failed to find valid FQDN for "{args.host}"'` — note the argument is
the raw ARGV token, not the prefix-stripped host. -/
def fqdnFailMsg (raw : Str) : Str :=
  ("Failed to find valid FQDN for \"").data ++ raw ++ ['\"']

/-- `f'Failed to find valid FQDN for jumphost "{host}"'`. -/
def jumphostFailMsg (h : Str) : Str :=
  ("Failed to find valid FQDN for jumphost \"").data ++ h ++ ['\"']

/-- The colorama deprecation warning printed by `-o (--nopubkey)`. -/
def warnMsgs (opts : Options) : List Msg :=
  if opts.nopubkey then [Msg.deprecatedFlagWarning] else []

/-- The observable outcome of one program invocation. -/
structure MainOut where
  msgs : List Msg
  launched : Option (List Str)
  exitCode : Nat
deriving DecidableEq

/-- `main`: resolve `args.host`, build and run the SSH command, catching
`subprocess.CalledProcessError` (discarded) and any other `Exception`
(printed).  `main` never calls `sys.exit`, so the interpreter exits with
status 0 on every modelled path, including a non-zero child exit
(`childExit` gives the exit status of the spawned process for a vector). -/
def mainRun (hostArg : Str) (opts : Options) (cfg : Config) (dns : Str → Bool)
    (childExit : List Str → Nat) : MainOut :=
  match (build_domain hostArg cfg.domains dns).1 with
  | PyResult.exc e => { msgs := [Msg.pyExc e], launched := none, exitCode := 0 }
  | PyResult.val none =>
      { msgs := [Msg.text (fqdnFailMsg hostArg)], launched := none, exitCode := 0 }
  | PyResult.val (some domain) =>
    if domain.isEmpty then
      { msgs := [Msg.text (fqdnFailMsg hostArg)], launched := none, exitCode := 0 }
    else
      match ssh_command opts cfg domain dns with
      | PyResult.exc e =>
          { msgs := warnMsgs opts ++ [Msg.pyExc e], launched := none, exitCode := 0 }
      | PyResult.val none =>
          { msgs := warnMsgs opts ++ [Msg.text (jumphostFailMsg (jumphostName opts cfg))],
            launched := none, exitCode := 0 }
      | PyResult.val (some vec) =>
        if opts.dev then
          { msgs := warnMsgs opts ++ [Msg.vecPrint vec], launched := none, exitCode := 0 }
        else
          { msgs := warnMsgs opts, launched := some vec,
            exitCode := 0 }

/-- A plain option set: no flags, default port. -/
def optsPlain : Options :=
  { command := none, dev := false, jump := false, jumphost := none,
    nopubkey := false, port := ("22").data, tunnel := false, v := 0 }

/-- A plain configuration with an empty domain search list. -/
def cfgPlain : Config :=
  { ssh_port := ("22").data, jump_host := ("jump").data, domains := [],
    tunnel_port := ("1080").data, sshpass := false }

/-- `cfgPlain` with password injection enabled. -/
def cfgSshpass : Config :=
  { ssh_port := ("22").data, jump_host := ("jump").data, domains := [],
    tunnel_port := ("1080").data, sshpass := true }

/-- `optsPlain` with a remote command and the tunnel flag. -/
def optsCmdW : Options := { optsPlain with command := some (("uptime").data), tunnel := true }

/-- `optsPlain` with only the tunnel flag. -/
def optsTunW : Options := { optsPlain with tunnel := true }

/-- The vector `ssh` builds for `optsPlain`/`cfgSshpass` and target `db1.corp`. -/
def vecSshpassW : List Str :=
  [sshpassTok, eTok, sshTok, pTok, ("22").data, oTok, strictTok, ("db1.corp").data]

/-- The vector `ssh` builds for `optsCmdW`/`cfgPlain` and target `db`. -/
def vecCmdW : List Str :=
  [sshTok, pTok, ("22").data, oTok, strictTok, ("db").data, ("uptime").data]

/-- The vector `ssh` builds for `optsTunW`/`cfgPlain` and target `db`. -/
def vecTunW : List Str :=
  [sshTok, pTok, ("22").data, oTok, strictTok, dTok, ("1080").data, ("db").data]

theorem splitOnChar_ne_nil (sep : Char) (s : Str) : splitOnChar sep s ≠ [] := by
  cases s with
  | nil => simp [splitOnChar]
  | cons c rest =>
    simp only [splitOnChar]
    by_cases hc : c = sep
    · simp [hc]
    · simp only [hc, if_false]
      cases splitOnChar sep rest with
      | nil => simp
      | cons p ps => simp

theorem mem_of_mem_splitOnChar {sep : Char} {s part : Str} {c : Char}
    (hp : part ∈ splitOnChar sep s) (hc : c ∈ part) : c ∈ s := by
  induction s generalizing part with
  | nil =>
    simp [splitOnChar] at hp
    subst hp
    simp at hc
  | cons x rest ih =>
    simp only [splitOnChar] at hp
    by_cases hx : x = sep
    · simp only [hx, if_true, List.mem_cons] at hp
      rcases hp with hp | hp
      · subst hp; simp at hc
      · exact List.mem_cons_of_mem x (ih hp hc)
    · simp only [hx, if_false] at hp
      rcases hr : splitOnChar sep rest with _ | ⟨p, ps⟩
      · exact absurd hr (splitOnChar_ne_nil sep rest)
      · rw [hr] at hp
        simp only [List.mem_cons] at hp
        rcases hp with hp | hp
        · subst hp
          rcases List.mem_cons.mp hc with h | h
          · subst h; exact List.mem_cons_self c rest
          · exact List.mem_cons_of_mem x (ih (by rw [hr]; exact List.mem_cons_self p ps) h)
        · exact List.mem_cons_of_mem x (ih (by rw [hr]; exact List.mem_cons_of_mem p hp) hc)

theorem splitOnChar_of_not_mem {sep : Char} {s : Str} (h : sep ∉ s) :
    splitOnChar sep s = [s] := by
  induction s with
  | nil => rfl
  | cons x rest ih =>
    have hx : x ≠ sep := fun he => h (he ▸ List.mem_cons_self x rest)
    have hrest : sep ∉ rest := fun hm => h (List.mem_cons_of_mem x hm)
    simp [splitOnChar, hx, ih hrest]

theorem parseIPv4Addr_of_no_dot {s : Str} (h : '.' ∉ s) : parseIPv4Addr s = none := by
  rw [parseIPv4Addr, splitOnChar_of_not_mem h]
  cases ho : parseOctet s <;> simp [parseOctets, ho]

/-- A host with no `'.'` never parses as an IPv4 network: the address part
cannot have four octets, so `IPv4Network` raises `AddressValueError`. -/
theorem parseIPv4Network_of_no_dot {s : Str} (h : '.' ∉ s) :
    parseIPv4Network s = IPParse.addrErr := by
  have haddr : ∀ part, part ∈ splitOnChar '/' s → parseIPv4Addr part = none := by
    intro part hp
    exact parseIPv4Addr_of_no_dot (fun hd => h (mem_of_mem_splitOnChar hp hd))
  unfold parseIPv4Network
  rcases hsp : splitOnChar '/' s with _ | ⟨a, _ | ⟨b, _ | ⟨c, t⟩⟩⟩
  · simp
  · have ha := haddr a (by rw [hsp]; exact List.mem_cons_self a [])
    simp [ha]
  · have ha := haddr a (by rw [hsp]; exact List.mem_cons_self a [b])
    simp [ha]
  · simp

theorem searchDomains_first_success (ha host : Str) (dns : Str → Bool)
    (pre post : List Str) (d : Str)
    (hpre : ∀ p ∈ pre, dns (host ++ '.' :: p) = false)
    (hd : dns (host ++ '.' :: d) = true) :
    searchDomains ha host dns (pre ++ d :: post) =
      (some (ha ++ '.' :: d),
       pre.map (fun p => host ++ '.' :: p) ++ [host ++ '.' :: d]) := by
  induction pre with
  | nil => simp [searchDomains, hd]
  | cons p ps ih =>
    have hp : dns (host ++ '.' :: p) = false := hpre p (List.mem_cons_self p ps)
    have ihh := ih (fun q hq => hpre q (List.mem_cons_of_mem p hq))
    simp [searchDomains, hp, ihh]

theorem searchDomains_queries (ha host : Str) (dns : Str → Bool) :
    ∀ ds q, q ∈ (searchDomains ha host dns ds).2 → ∃ d ∈ ds, q = host ++ '.' :: d := by
  intro ds
  induction ds with
  | nil => intro q hq; simp [searchDomains] at hq
  | cons d rest ih =>
    intro q hq
    by_cases hd : dns (host ++ '.' :: d)
    · simp [searchDomains, hd] at hq
      exact ⟨d, List.mem_cons_self d rest, hq⟩
    · simp [searchDomains, hd] at hq
      rcases hq with hq | hq
      · exact ⟨d, List.mem_cons_self d rest, hq⟩
      · rcases ih q hq with ⟨e, he, hqe⟩
        exact ⟨e, List.mem_cons_of_mem d he, hqe⟩

theorem searchDomains_result (ha host : Str) (dns : Str → Bool) :
    ∀ ds r, (searchDomains ha host dns ds).1 = some r → ∃ d ∈ ds, r = ha ++ '.' :: d := by
  intro ds
  induction ds with
  | nil => intro r hr; simp [searchDomains] at hr
  | cons d rest ih =>
    intro r hr
    by_cases hd : dns (host ++ '.' :: d)
    · simp [searchDomains, hd] at hr
      exact ⟨d, List.mem_cons_self d rest, hr.symm⟩
    · simp [searchDomains, hd] at hr
      rcases ih r hr with ⟨e, he, hre⟩
      exact ⟨e, List.mem_cons_of_mem d he, hre⟩

theorem searchDomains_exhaust (ha host : Str) (dns : Str → Bool) :
    ∀ ds, (searchDomains ha host dns ds).1 = none →
      (searchDomains ha host dns ds).2 = ds.map (fun d => host ++ '.' :: d) := by
  intro ds
  induction ds with
  | nil => intro _; rfl
  | cons d rest ih =>
    intro hn
    by_cases hd : dns (host ++ '.' :: d)
    · simp [searchDomains, hd] at hn
    · simp [searchDomains, hd] at hn ⊢
      exact ih hn

/-- C1: for a raw host token whose host portion contains no `'.'` (so that
the IP-literal probe necessarily fails with `AddressValueError`),
`build_domain` probes `host.d` for the domains `d` of the search list in
list order, returns the raw token with `"." + d` appended for the first
`d` that resolves, and the probe trace stops at that domain — no later
domain is tried. -/
theorem resolve_suffix_search_first_success
    (ha d : Str) (pre post : List Str) (dns : Str → Bool)
    (hdot : '.' ∉ hostOf ha)
    (hpre : ∀ p ∈ pre, dns (hostOf ha ++ '.' :: p) = false)
    (hd : dns (hostOf ha ++ '.' :: d) = true) :
    build_domain ha (pre ++ d :: post) dns =
      (PyResult.val (some (ha ++ '.' :: d)),
       pre.map (fun p => hostOf ha ++ '.' :: p) ++ [hostOf ha ++ '.' :: d]) := by
  have hip := parseIPv4Network_of_no_dot hdot
  simp only [build_domain, hip, hdot, if_false]
  rw [searchDomains_first_success ha (hostOf ha) dns pre post d hpre hd]

theorem resolve_suffix_search_first_success_witness :
    build_domain (("db1").data) [("corp.example.com").data]
        (fun s => s == ("db1.corp.example.com").data) =
      (PyResult.val (some (("db1.corp.example.com").data)),
       [("db1.corp.example.com").data]) := by
  have h := resolve_suffix_search_first_success (("db1").data) (("corp.example.com").data)
      [] [] (fun s => s == ("db1.corp.example.com").data)
      (by decide) (by intro p hp; simp at hp) (by decide)
  simpa using h

/-- C2: a raw host token whose host portion parses as an IPv4 address or
network literal is returned completely unchanged, and the trace is empty:
no name-resolution call happens at all. -/
theorem resolve_ip_literal_unchanged (ha : Str) (domains : List Str) (dns : Str → Bool)
    (hip : parseIPv4Network (hostOf ha) = IPParse.ok) :
    build_domain ha domains dns = (PyResult.val (some ha), []) := by
  simp [build_domain, hip]

theorem resolve_ip_literal_unchanged_witness :
    build_domain (("user@10.0.0.5").data) [("corp.example.com").data] (fun _ => false) =
      (PyResult.val (some (("user@10.0.0.5").data)), []) :=
  resolve_ip_literal_unchanged (("user@10.0.0.5").data) [("corp.example.com").data]
    (fun _ => false) (by decide)

/-- C3: (first half) when the host portion contains a `'.'`, the IP-literal
probe fails with `AddressValueError`, and the direct lookup succeeds,
`build_domain` returns the raw token unchanged and the trace is exactly
`[host]` — the domain search list is never consulted; (second half) when
the host portion contains no `'.'`, the bare host is never handed to the
resolution facility, whatever the resolver does. -/
theorem resolve_direct_fqdn (ha : Str) (domains : List Str) (dns : Str → Bool) :
    (parseIPv4Network (hostOf ha) = IPParse.addrErr → '.' ∈ hostOf ha →
       dns (hostOf ha) = true →
       build_domain ha domains dns = (PyResult.val (some ha), [hostOf ha]))
    ∧ ('.' ∉ hostOf ha → hostOf ha ∉ (build_domain ha domains dns).2) := by
  constructor
  · intro hip hdot hdns
    simp [build_domain, hip, hdot, hdns]
  · intro hdot
    have hip := parseIPv4Network_of_no_dot hdot
    simp only [build_domain, hip, hdot, if_false]
    intro hmem
    rcases searchDomains_queries ha (hostOf ha) dns domains (hostOf ha) hmem with ⟨d, _, hq⟩
    have hlen := congrArg List.length hq
    simp [List.length_append] at hlen

theorem resolve_direct_fqdn_witness :
    build_domain (("web.corp").data) [("x").data] (fun s => s == ("web.corp").data) =
      (PyResult.val (some (("web.corp").data)), [("web.corp").data])
    ∧ hostOf (("db1").data) ∉
        (build_domain (("db1").data) [("x").data] (fun _ => false)).2 :=
  ⟨(resolve_direct_fqdn (("web.corp").data) [("x").data]
        (fun s => s == ("web.corp").data)).1 (by decide) (by decide) (by decide),
   (resolve_direct_fqdn (("db1").data) [("x").data] (fun _ => false)).2 (by decide)⟩

/-- C4 (amended): provided the IP-literal probe does not raise one of the
exceptions `build_domain` fails to catch (`NetmaskValueError` / the strict
host-bits `ValueError`), no error ever escapes `build_domain` — every
probe failure just moves on to the next candidate — and an overall failure
(`None`) is returned only after the direct probe (when applicable) and
every search-list candidate have been tried. -/
theorem resolve_error_containment (ha : Str) (domains : List Str) (dns : Str → Bool)
    (hip : parseIPv4Network (hostOf ha) ≠ IPParse.otherErr) :
    (∃ r, (build_domain ha domains dns).1 = PyResult.val r)
    ∧ ((build_domain ha domains dns).1 = PyResult.val none →
        (build_domain ha domains dns).2 =
          (if '.' ∈ hostOf ha then [hostOf ha] else []) ++
            domains.map (fun d => hostOf ha ++ '.' :: d)) := by
  rcases hp : parseIPv4Network (hostOf ha) with _ | _ | _
  · constructor
    · exact ⟨some ha, by simp [build_domain, hp]⟩
    · intro hnone
      simp [build_domain, hp] at hnone
  · by_cases hdot : '.' ∈ hostOf ha
    · by_cases hdns : dns (hostOf ha)
      · constructor
        · exact ⟨some ha, by simp [build_domain, hp, hdot, hdns]⟩
        · intro hnone
          simp [build_domain, hp, hdot, hdns] at hnone
      · constructor
        · exact ⟨(searchDomains ha (hostOf ha) dns domains).1, by
            simp [build_domain, hp, hdot, hdns]⟩
        · intro hnone
          simp only [build_domain, hp, hdot, if_true, hdns] at hnone ⊢
          simp only [Bool.false_eq_true, if_false] at hnone ⊢
          have h2 := searchDomains_exhaust ha (hostOf ha) dns domains (by
            simpa using hnone)
          simp [h2, hdot]
    · constructor
      · exact ⟨(searchDomains ha (hostOf ha) dns domains).1, by
          simp [build_domain, hp, hdot]⟩
      · intro hnone
        simp only [build_domain, hp, hdot, if_false] at hnone ⊢
        have h2 := searchDomains_exhaust ha (hostOf ha) dns domains (by
          simpa using hnone)
        simp [h2, hdot]
  · exact absurd hp hip

theorem resolve_error_containment_witness :
    (∃ r, (build_domain (("ghost").data) [("a").data] (fun _ => false)).1 =
       PyResult.val r)
    ∧ ((build_domain (("ghost").data) [("a").data] (fun _ => false)).1 =
         PyResult.val none →
        (build_domain (("ghost").data) [("a").data] (fun _ => false)).2 =
          (if '.' ∈ hostOf (("ghost").data) then [hostOf (("ghost").data)] else []) ++
            [("a").data].map (fun d => hostOf (("ghost").data) ++ '.' :: d)) :=
  resolve_error_containment (("ghost").data) [("a").data] (fun _ => false) (by decide)

/-- C4 counterexample: for the raw token `"10.0.0.0/33"` the IP-literal
probe raises `NetmaskValueError`, which `except ipaddress.AddressValueError`
does not catch: the error escapes `build_domain` instead of the algorithm
proceeding to the next candidate, refuting the claim that a failing probe
never propagates an error. -/
theorem resolve_netmask_error_escapes :
    (build_domain (("10.0.0.0/33").data) [("corp").data] (fun _ => true)).1 =
      PyResult.exc PyExc.parseError := by decide

/-- C5 (amended): the host portion `build_domain` works on is the suffix
after the FIRST `'@'` (`str.find`), not the last: every name handed to the
resolution facility extends `hostOf ha`, and on success the returned
target extends the full raw token, so the stripped prefix (everything up
to and including the first `'@'`) is preserved and reattached. -/
theorem resolve_strips_first_at (ha : Str) (domains : List Str) (dns : Str → Bool) :
    (∀ q ∈ (build_domain ha domains dns).2, hostOf ha <+: q)
    ∧ (∀ r, (build_domain ha domains dns).1 = PyResult.val (some r) → ha <+: r) := by
  rcases hp : parseIPv4Network (hostOf ha) with _ | _ | _
  · constructor
    · intro q hq; simp [build_domain, hp] at hq
    · intro r hr
      simp [build_domain, hp] at hr
      exact hr ▸ List.prefix_rfl
  · by_cases hdot : '.' ∈ hostOf ha
    · by_cases hdns : dns (hostOf ha)
      · constructor
        · intro q hq
          simp [build_domain, hp, hdot, hdns] at hq
          exact hq ▸ List.prefix_rfl
        · intro r hr
          simp [build_domain, hp, hdot, hdns] at hr
          exact hr ▸ List.prefix_rfl
      · constructor
        · intro q hq
          simp only [build_domain, hp, hdot, if_true, hdns, Bool.false_eq_true,
            if_false, List.mem_cons] at hq
          rcases hq with hq | hq
          · exact hq ▸ List.prefix_rfl
          · rcases searchDomains_queries ha (hostOf ha) dns domains q hq with ⟨d, _, hqd⟩
            exact hqd ▸ List.prefix_append (hostOf ha) ('.' :: d)
        · intro r hr
          simp only [build_domain, hp, hdot, if_true, hdns, Bool.false_eq_true,
            if_false] at hr
          rcases searchDomains_result ha (hostOf ha) dns domains r (by simpa using hr)
            with ⟨d, _, hrd⟩
          exact hrd ▸ List.prefix_append ha ('.' :: d)
    · constructor
      · intro q hq
        simp only [build_domain, hp, hdot, if_false] at hq
        rcases searchDomains_queries ha (hostOf ha) dns domains q hq with ⟨d, _, hqd⟩
        exact hqd ▸ List.prefix_append (hostOf ha) ('.' :: d)
      · intro r hr
        simp only [build_domain, hp, hdot, if_false] at hr
        rcases searchDomains_result ha (hostOf ha) dns domains r (by simpa using hr)
          with ⟨d, _, hrd⟩
        exact hrd ▸ List.prefix_append ha ('.' :: d)
  · constructor
    · intro q hq; simp [build_domain, hp] at hq
    · intro r hr; simp [build_domain, hp] at hr

theorem resolve_strips_first_at_witness :
    hostOf (("root@sw1").data) <+: (("sw1.corp").data)
    ∧ (("root@sw1").data) <+: (("root@sw1.corp").data) :=
  ⟨(resolve_strips_first_at (("root@sw1").data) [("corp").data]
        (fun s => s == ("sw1.corp").data)).1 (("sw1.corp").data) (by decide),
   (resolve_strips_first_at (("root@sw1").data) [("corp").data]
        (fun s => s == ("sw1.corp").data)).2 (("root@sw1.corp").data) (by decide)⟩

/-- C5 counterexample: on the raw token `"a@b@c"` the resolver probes
`"b@c.d"` — the portion after the FIRST `'@'` plus the search domain —
and succeeds, even though the candidate predicted by the claim
(`"c.d"`, built from the portion after the LAST `'@'`) does not resolve;
so the claim that everything before and including the last `'@'` is
stripped is false. -/
theorem resolve_first_at_cex :
    build_domain (("a@b@c").data) [("d").data] (fun s => s == ("b@c.d").data) =
      (PyResult.val (some (("a@b@c.d").data)), [("b@c.d").data])
    ∧ (fun s => s == ("b@c.d").data) (("c.d").data) = false := by decide

theorem mem_verbosityPart {opts : Options} {x : Str} (hx : x ∈ verbosityPart opts) :
    x = verbosityTok opts.v := by
  unfold verbosityPart at hx
  split at hx
  · simpa using hx
  · simp at hx

theorem mem_nopubkeyPart {opts : Options} {x : Str} (hx : x ∈ nopubkeyPart opts) :
    x = oTok ∨ x = pubkeyTok := by
  unfold nopubkeyPart at hx
  split at hx
  · simpa using hx
  · simp at hx

theorem mem_tunnelPart {opts : Options} {cfg : Config} {x : Str}
    (hx : x ∈ tunnelPart opts cfg) : x = dTok ∨ x = cfg.tunnel_port := by
  unfold tunnelPart at hx
  split at hx
  · simpa using hx
  · simp at hx

theorem mem_commandPart {opts : Options} {x : Str} (hx : x ∈ commandPart opts) :
    ∃ c, opts.command = some c ∧ x = c := by
  rcases hc : opts.command with _ | c
  · simp [commandPart, hc] at hx
  · simp only [commandPart, hc] at hx
    split at hx
    · simp at hx
    · simp at hx
      exact ⟨c, rfl, hx⟩

theorem mem_baseCmd {opts : Options} {x : Str} (hx : x ∈ baseCmd opts) :
    x = sshTok ∨ x = pTok ∨ x = opts.port ∨ x = verbosityTok opts.v ∨
      x = oTok ∨ x = strictTok ∨ x = pubkeyTok := by
  simp only [baseCmd, List.mem_append] at hx
  rcases hx with ((hx | hx) | hx) | hx
  · simp at hx; tauto
  · have := mem_verbosityPart hx; tauto
  · simp at hx; tauto
  · have := mem_nopubkeyPart hx; tauto

theorem mem_tailCmd {opts : Options} {cfg : Config} {domain : Str} {cmd : List Str}
    {x : Str} (hx : x ∈ tailCmd opts cfg domain cmd) :
    x ∈ cmd ∨ x = dTok ∨ x = cfg.tunnel_port ∨ x = domain ∨
      ∃ c, opts.command = some c ∧ x = c := by
  simp only [tailCmd, List.mem_append] at hx
  rcases hx with ((hx | hx) | hx) | hx
  · exact Or.inl hx
  · rcases mem_tunnelPart hx with h | h <;> tauto
  · simp at hx; tauto
  · have := mem_commandPart hx; tauto

theorem verbosityTok_ne_jTok (v : Nat) : verbosityTok v ≠ jTok := by
  unfold verbosityTok
  generalize (if v < 4 then v else 3) = k
  cases k with
  | zero => decide
  | succ k =>
    intro h
    have hj : jTok = '-' :: 'J' :: [] := by decide
    rw [hj, List.replicate] at h
    injection h with h1 h2
    injection h2 with h3 h4
    exact absurd h3 (by decide)

theorem verbosityTok_ne_dTok (v : Nat) : verbosityTok v ≠ dTok := by
  unfold verbosityTok
  generalize (if v < 4 then v else 3) = k
  cases k with
  | zero => decide
  | succ k =>
    intro h
    have hd : dTok = '-' :: 'D' :: [] := by decide
    rw [hd, List.replicate] at h
    injection h with h1 h2
    injection h2 with h3 h4
    exact absurd h3 (by decide)

theorem jTok_not_mem_baseCmd {opts : Options} (hport : opts.port ≠ jTok) :
    jTok ∉ baseCmd opts := by
  intro hx
  rcases mem_baseCmd hx with h | h | h | h | h | h | h
  · exact absurd h (by decide)
  · exact absurd h (by decide)
  · exact hport h.symm
  · exact verbosityTok_ne_jTok opts.v h.symm
  · exact absurd h (by decide)
  · exact absurd h (by decide)
  · exact absurd h (by decide)

theorem dTok_not_mem_baseCmd {opts : Options} (hport : opts.port ≠ dTok) :
    dTok ∉ baseCmd opts := by
  intro hx
  rcases mem_baseCmd hx with h | h | h | h | h | h | h
  · exact absurd h (by decide)
  · exact absurd h (by decide)
  · exact hport h.symm
  · exact verbosityTok_ne_dTok opts.v h.symm
  · exact absurd h (by decide)
  · exact absurd h (by decide)
  · exact absurd h (by decide)

/-- C8: a produced command vector starts with the password-injection helper
`["sshpass", "-e"]` exactly when no jump host is in effect (neither the
jump flag nor a truthy jump-host override), settings enable password
injection, and the resolved target carries no `'@'`; consequently no
produced vector both starts with the helper and carries the `-J` option
(side conditions rule out user-chosen strings that merely collide with the
literal `"-J"` token). -/
theorem ssh_sshpass_iff (opts : Options) (cfg : Config) (domain : Str) (dns : Str → Bool)
    (vec : List Str)
    (hvec : ssh_command opts cfg domain dns = PyResult.val (some vec))
    (hport : opts.port ≠ jTok) (htp : cfg.tunnel_port ≠ jTok) (hdom : domain ≠ jTok)
    (hcmd : ∀ c, opts.command = some c → c ≠ jTok) :
    (vec.take 2 = [sshpassTok, eTok] ↔
      ((opts.jump || truthy opts.jumphost) = false ∧ cfg.sshpass = true ∧ '@' ∉ domain))
    ∧ ¬(vec.take 2 = [sshpassTok, eTok] ∧ jTok ∈ vec) := by
  have hne : ([sshTok, pTok] : List Str) ≠ [sshpassTok, eTok] := by decide
  unfold ssh_command at hvec
  by_cases hj : (opts.jump || truthy opts.jumphost) = true
  · rw [if_pos hj] at hvec
    rcases hg : get_jumphost opts cfg dns with (_ | jh) | e
    · rw [hg] at hvec; simp at hvec
    · rw [hg] at hvec
      simp only [PyResult.val.injEq, Option.some.injEq] at hvec
      subst hvec
      have ht : (tailCmd opts cfg domain (baseCmd opts ++ [jTok, jh])).take 2 =
          [sshTok, pTok] := rfl
      constructor
      · constructor
        · intro h2; rw [ht] at h2; exact absurd h2 hne
        · rintro ⟨hjf, -, -⟩; rw [hj] at hjf; exact absurd hjf (by decide)
      · rintro ⟨h2, -⟩; rw [ht] at h2; exact absurd h2 hne
    · rw [hg] at hvec; simp at hvec
  · have hjf : (opts.jump || truthy opts.jumphost) = false := by
      simpa using hj
    rw [if_neg hj] at hvec
    by_cases hsp : cfg.sshpass ∧ '@' ∉ domain
    · rw [if_pos hsp] at hvec
      simp only [PyResult.val.injEq, Option.some.injEq] at hvec
      subst hvec
      have ht : (tailCmd opts cfg domain (sshpassTok :: eTok :: baseCmd opts)).take 2 =
          [sshpassTok, eTok] := rfl
      constructor
      · constructor
        · intro _; exact ⟨hjf, hsp.1, hsp.2⟩
        · intro _; exact ht
      · rintro ⟨-, hmem⟩
        rcases mem_tailCmd hmem with hx | hx | hx | hx | ⟨c, hc, hx⟩
        · rcases List.mem_cons.mp hx with h | hx2
          · exact absurd h (by decide)
          · rcases List.mem_cons.mp hx2 with h | hx3
            · exact absurd h (by decide)
            · exact jTok_not_mem_baseCmd hport hx3
        · exact absurd hx (by decide)
        · exact htp hx.symm
        · exact hdom hx.symm
        · exact hcmd c hc hx.symm
    · rw [if_neg hsp] at hvec
      simp only [PyResult.val.injEq, Option.some.injEq] at hvec
      subst hvec
      have ht : (tailCmd opts cfg domain (baseCmd opts)).take 2 = [sshTok, pTok] := rfl
      constructor
      · constructor
        · intro h2; rw [ht] at h2; exact absurd h2 hne
        · rintro ⟨-, hs, hn⟩; exact absurd ⟨hs, hn⟩ hsp
      · rintro ⟨h2, -⟩; rw [ht] at h2; exact absurd h2 hne

theorem ssh_sshpass_iff_witness :
    (vecSshpassW.take 2 = [sshpassTok, eTok] ↔
      ((optsPlain.jump || truthy optsPlain.jumphost) = false ∧ cfgSshpass.sshpass = true ∧
        '@' ∉ (("db1.corp").data)))
    ∧ ¬(vecSshpassW.take 2 = [sshpassTok, eTok] ∧ jTok ∈ vecSshpassW) :=
  ssh_sshpass_iff optsPlain cfgSshpass (("db1.corp").data) (fun _ => false) vecSshpassW
    (by decide) (by decide) (by decide) (by decide)
    (fun c hc => by simp [optsPlain] at hc)

/-- C9 (amended): when a NON-EMPTY remote command string is supplied, the
produced vector carries it as its last element and contains no `-D` token
even if the tunnel flag is set (side conditions rule out user-chosen
strings colliding with the literal `"-D"`); when the command is absent or
empty (Python truthiness) and the tunnel flag is set, the vector ends with
`-D <tunnel_port> <target>`, i.e. the forward option appears and precedes
the target. -/
theorem ssh_command_mutual_exclusion (opts : Options) (cfg : Config) (domain : Str)
    (dns : Str → Bool) (vec : List Str)
    (hvec : ssh_command opts cfg domain dns = PyResult.val (some vec))
    (hport : opts.port ≠ dTok) (hdom : domain ≠ dTok)
    (hjh : ∀ jh, get_jumphost opts cfg dns = PyResult.val (some jh) → jh ≠ dTok)
    (hcmd2 : ∀ c, opts.command = some c → c ≠ dTok) :
    (∀ c, opts.command = some c → c.isEmpty = false →
        vec.getLast? = some c ∧ dTok ∉ vec)
    ∧ (truthy opts.command = false → opts.tunnel = true →
        ∃ pre, vec = pre ++ [dTok, cfg.tunnel_port, domain]) := by
  have hshape : ∃ cmd0, vec = tailCmd opts cfg domain cmd0 ∧ dTok ∉ cmd0 := by
    unfold ssh_command at hvec
    by_cases hj : (opts.jump || truthy opts.jumphost) = true
    · rw [if_pos hj] at hvec
      rcases hg : get_jumphost opts cfg dns with (_ | jh) | e
      · rw [hg] at hvec; simp at hvec
      · rw [hg] at hvec
        simp only [PyResult.val.injEq, Option.some.injEq] at hvec
        refine ⟨baseCmd opts ++ [jTok, jh], hvec.symm, ?_⟩
        intro hx
        rcases List.mem_append.mp hx with hx | hx
        · exact dTok_not_mem_baseCmd hport hx
        · rcases List.mem_cons.mp hx with h | hx2
          · exact absurd h (by decide)
          · rcases List.mem_cons.mp hx2 with h | hx3
            · exact hjh jh hg h.symm
            · simp at hx3
      · rw [hg] at hvec; simp at hvec
    · rw [if_neg hj] at hvec
      by_cases hsp : cfg.sshpass ∧ '@' ∉ domain
      · rw [if_pos hsp] at hvec
        simp only [PyResult.val.injEq, Option.some.injEq] at hvec
        refine ⟨sshpassTok :: eTok :: baseCmd opts, hvec.symm, ?_⟩
        intro hx
        rcases List.mem_cons.mp hx with h | hx2
        · exact absurd h (by decide)
        · rcases List.mem_cons.mp hx2 with h | hx3
          · exact absurd h (by decide)
          · exact dTok_not_mem_baseCmd hport hx3
      · rw [if_neg hsp] at hvec
        simp only [PyResult.val.injEq, Option.some.injEq] at hvec
        exact ⟨baseCmd opts, hvec.symm, fun hx => dTok_not_mem_baseCmd hport hx⟩
  rcases hshape with ⟨cmd0, hv0, hnd⟩
  constructor
  · intro c hc hce
    have htr : truthy opts.command = true := by simp [truthy, hc, hce]
    have hcp : commandPart opts = [c] := by simp [commandPart, hc, hce]
    have htp0 : tunnelPart opts cfg = [] := by simp [tunnelPart, htr]
    constructor
    · rw [hv0]
      unfold tailCmd
      rw [hcp, htp0]
      simp only [List.append_nil]
      exact List.getLast?_concat _
    · rw [hv0]
      unfold tailCmd
      rw [hcp, htp0]
      simp only [List.append_nil]
      intro hx
      rcases List.mem_append.mp hx with hx | hx
      · rcases List.mem_append.mp hx with hx | hx
        · exact hnd hx
        · simp at hx; exact hdom hx.symm
      · simp at hx; exact hcmd2 c hc hx.symm
  · intro htr htn
    have htp0 : tunnelPart opts cfg = [dTok, cfg.tunnel_port] := by
      simp [tunnelPart, htr, htn]
    have hcp : commandPart opts = [] := by
      rcases hc : opts.command with _ | c
      · simp [commandPart, hc]
      · have hce : c.isEmpty = true := by
          rw [hc] at htr
          simpa [truthy] using htr
        simp [commandPart, hc, hce]
    refine ⟨cmd0, ?_⟩
    rw [hv0]
    unfold tailCmd
    rw [htp0, hcp]
    simp [List.append_assoc]

theorem ssh_command_mutual_exclusion_witness :
    (vecCmdW.getLast? = some (("uptime").data) ∧ dTok ∉ vecCmdW)
    ∧ (∃ pre, vecTunW = pre ++ [dTok, cfgPlain.tunnel_port, ("db").data]) :=
  ⟨(ssh_command_mutual_exclusion optsCmdW cfgPlain (("db").data) (fun _ => false) vecCmdW
      (by decide) (by decide) (by decide)
      (fun jh h => by
        have he : get_jumphost optsCmdW cfgPlain (fun _ => false) = PyResult.val none := by
          decide
        rw [he] at h
        simp at h)
      (fun c hc => by
        have hc2 : c = ("uptime").data := by
          have : (some (("uptime").data) : Option Str) = some c := hc
          simpa using this.symm
        rw [hc2]
        decide)).1
    (("uptime").data) (by decide) (by decide),
   (ssh_command_mutual_exclusion optsTunW cfgPlain (("db").data) (fun _ => false) vecTunW
      (by decide) (by decide) (by decide)
      (fun jh h => by
        have he : get_jumphost optsTunW cfgPlain (fun _ => false) = PyResult.val none := by
          decide
        rw [he] at h
        simp at h)
      (fun c hc => by simp [optsTunW, optsPlain] at hc)).2
    (by decide) (by decide)⟩

/-- C9 counterexample: supplying an EMPTY remote command string (`-c ""`)
together with the tunnel flag defeats the claim: Python truthiness treats
the empty command as absent, so the built vector still contains the `-D`
dynamic-forward option and its last element is the target, not the
supplied command string. -/
theorem ssh_empty_command_cex :
    ssh_command { optsPlain with command := some [], tunnel := true } cfgPlain
        (("db").data) (fun _ => false) =
      PyResult.val (some [sshTok, pTok, ("22").data, oTok, strictTok, dTok,
        ("1080").data, ("db").data])
    ∧ dTok ∈ [sshTok, pTok, ("22").data, oTok, strictTok, dTok, ("1080").data, ("db").data]
    ∧ [sshTok, pTok, ("22").data, oTok, strictTok, dTok, ("1080").data,
        ("db").data].getLast? ≠ some ([] : Str) := by decide

/-- C6 (amended): when every probe fails for the primary host token,
`main` prints the failure message built from the RAW token (`args.host`,
user-prefix included), the external SSH process is never launched, and the
program exits with status 0 (main returns normally; it never calls
`sys.exit`). -/
theorem main_resolution_failure (ha : Str) (opts : Options) (cfg : Config)
    (dns : Str → Bool) (ce : List Str → Nat)
    (hfail : (build_domain ha cfg.domains dns).1 = PyResult.val none) :
    mainRun ha opts cfg dns ce =
      { msgs := [Msg.text (fqdnFailMsg ha)], launched := none, exitCode := 0 } := by
  unfold mainRun
  rw [hfail]

theorem main_resolution_failure_witness :
    mainRun (("user@ghost").data) optsPlain cfgPlain (fun _ => false) (fun _ => 0) =
      { msgs := [Msg.text (fqdnFailMsg (("user@ghost").data))], launched := none,
        exitCode := 0 } :=
  main_resolution_failure (("user@ghost").data) optsPlain cfgPlain (fun _ => false)
    (fun _ => 0) (by decide)

/-- C6 counterexample: for the token `"user@ghost"` (empty search list,
nothing resolves) the failure message names the raw token with its
`user@` prefix — not the prefix-stripped host `"ghost"` — and the exit
status is 0, not non-zero, refuting both parts of the claim (SSH is indeed
never invoked). -/
theorem main_failure_message_cex :
    (mainRun (("user@ghost").data) optsPlain cfgPlain (fun _ => false)
        (fun _ => 1)).exitCode = 0
    ∧ (mainRun (("user@ghost").data) optsPlain cfgPlain (fun _ => false)
        (fun _ => 1)).msgs = [Msg.text (fqdnFailMsg (("user@ghost").data))]
    ∧ fqdnFailMsg (("user@ghost").data) ≠ fqdnFailMsg (hostOf (("user@ghost").data))
    ∧ (mainRun (("user@ghost").data) optsPlain cfgPlain (fun _ => false)
        (fun _ => 1)).launched = none := by decide

/-- C7 (amended): when the SSH child process is actually launched (non-dev
run) and exits non-zero, `subprocess.CalledProcessError` is caught and
discarded: the program prints nothing further (beyond the `-o` deprecation
warning it may already have printed) and exits with status 0 — the child's
exit status is NOT propagated. -/
theorem main_child_exit_swallowed (ha : Str) (opts : Options) (cfg : Config)
    (dns : Str → Bool) (ce : List Str → Nat) (vec : List Str)
    (hdev : opts.dev = false)
    (hlaunch : (mainRun ha opts cfg dns ce).launched = some vec)
    (hrc : ce vec ≠ 0) :
    (mainRun ha opts cfg dns ce).exitCode = 0
    ∧ (mainRun ha opts cfg dns ce).msgs = warnMsgs opts := by
  rcases hbd : (build_domain ha cfg.domains dns).1 with (_ | d) | e
  · simp [mainRun, hbd] at hlaunch
  · by_cases hde : d.isEmpty
    · simp [mainRun, hbd, hde] at hlaunch
    · rcases hss : ssh_command opts cfg d dns with (_ | v) | e2
      · simp [mainRun, hbd, hde, hss] at hlaunch
      · simp [mainRun, hbd, hde, hss, hdev]
      · simp [mainRun, hbd, hde, hss] at hlaunch
  · simp [mainRun, hbd] at hlaunch

theorem main_child_exit_swallowed_witness :
    (mainRun (("10.0.0.5").data) optsPlain cfgPlain (fun _ => false)
        (fun _ => 7)).exitCode = 0
    ∧ (mainRun (("10.0.0.5").data) optsPlain cfgPlain (fun _ => false)
        (fun _ => 7)).msgs = warnMsgs optsPlain :=
  main_child_exit_swallowed (("10.0.0.5").data) optsPlain cfgPlain (fun _ => false)
    (fun _ => 7) [sshTok, pTok, ("22").data, oTok, strictTok, ("10.0.0.5").data]
    (by decide) (by decide) (by decide)

/-- C7 counterexample: target `10.0.0.5` resolves as an IP literal, SSH is
launched, the child exits with status 37 — yet the program's own exit
status is 0, not 37: the claim that the program mirrors the child's exit
status is false. -/
theorem main_child_exit_cex :
    (mainRun (("10.0.0.5").data) optsPlain cfgPlain (fun _ => false)
        (fun _ => 37)).launched =
      some [sshTok, pTok, ("22").data, oTok, strictTok, ("10.0.0.5").data]
    ∧ (mainRun (("10.0.0.5").data) optsPlain cfgPlain (fun _ => false)
        (fun _ => 37)).exitCode = 0
    ∧ (37 : Nat) ≠ 0 := by decide

/-- C10: under any fixed resolver behavior, the legacy resolver
(`build_domain` in `temp.py`) and the current one (`build_domain` in
`ssm.py`) hand exactly the same names to the resolution facility in the
same order, succeed on exactly the same inputs with the identical resolved
target, and their overall failures correspond exactly: the legacy copy
raises `Exception('Host "<host>" is unreachable')` precisely when the
current copy returns `None`. -/
theorem legacy_current_resolver_agree (ha : Str) (domains : List Str) (dns : Str → Bool) :
    (build_domain_legacy ha domains dns).2 = (build_domain ha domains dns).2
    ∧ (∀ s, (build_domain_legacy ha domains dns).1 = PyResult.val s ↔
         (build_domain ha domains dns).1 = PyResult.val (some s))
    ∧ ((build_domain_legacy ha domains dns).1 =
         PyResult.exc (PyExc.unreachable (hostOf ha)) ↔
       (build_domain ha domains dns).1 = PyResult.val none) := by
  rcases hp : parseIPv4Network (hostOf ha) with _ | _ | _
  · refine ⟨?_, fun s => ?_, ?_⟩ <;> simp [build_domain, build_domain_legacy, hp]
  · by_cases hdot : '.' ∈ hostOf ha
    · by_cases hdns : dns (hostOf ha)
      · refine ⟨?_, fun s => ?_, ?_⟩ <;>
          simp [build_domain, build_domain_legacy, hp, hdot, hdns]
      · rcases hr : searchDomains ha (hostOf ha) dns domains with ⟨r1, r2⟩
        rcases r1 with _ | t
        · refine ⟨?_, fun s => ?_, ?_⟩ <;>
            simp [build_domain, build_domain_legacy, hp, hdot, hdns, hr]
        · refine ⟨?_, fun s => ?_, ?_⟩ <;>
            simp [build_domain, build_domain_legacy, hp, hdot, hdns, hr]
    · rcases hr : searchDomains ha (hostOf ha) dns domains with ⟨r1, r2⟩
      rcases r1 with _ | t
      · refine ⟨?_, fun s => ?_, ?_⟩ <;>
          simp [build_domain, build_domain_legacy, hp, hdot, hr]
      · refine ⟨?_, fun s => ?_, ?_⟩ <;>
          simp [build_domain, build_domain_legacy, hp, hdot, hr]
  · refine ⟨?_, fun s => ?_, ?_⟩ <;> simp [build_domain, build_domain_legacy, hp]

theorem legacy_current_resolver_agree_witness :
    (build_domain_legacy (("db1").data) [("corp").data] (fun _ => false)).2 =
      (build_domain (("db1").data) [("corp").data] (fun _ => false)).2 :=
  (legacy_current_resolver_agree (("db1").data) [("corp").data] (fun _ => false)).1

end SSM
